import Mathlib

/-!
# Verification of the ssdp-rs discovery library against its specification

Shallow embedding of the ssdp-rs crate (message model, header model, interface
filtering, send path, listen path, concurrent receiver loop) together with
theorems settling the specification claims.  Machine integers are modelled as
`Nat` (u8 octets, u16 segments and ports, u32 codes); fallible Rust functions
return `Except`/`Option`; OS-provided effects (socket bind, local-address
lookup, datagram send, interface enumeration) are passed in explicitly as
environment data so that every definition stays executable.
-/

namespace Ssdp

/-- An `std::io::ErrorKind`, reduced to the kinds the code inspects
(`WouldBlock`, `TimedOut`) plus an opaque code for every other kind. -/
inductive IoErrorKind where
  | wouldBlock
  | timedOut
  | other (code : Nat)
deriving DecidableEq, Repr

/-- An `std::io::Error`, identified by its kind (the only part the code reads). -/
abbrev IoError := IoErrorKind

/-- `std::net::Ipv4Addr` as its four octets (each `< 256`). -/
structure Ipv4Addr where
  o0 : Nat
  o1 : Nat
  o2 : Nat
  o3 : Nat
deriving DecidableEq, Repr

/-- `Ipv4Addr::is_loopback`: the `127.0.0.0/8` block. -/
def Ipv4Addr.isLoopback (ip : Ipv4Addr) : Bool :=
  ip.o0 == 127

/-- `std::net::Ipv6Addr` as its eight 16-bit segments (`Ipv6Addr::segments`). -/
structure Ipv6Addr where
  s0 : Nat
  s1 : Nat
  s2 : Nat
  s3 : Nat
  s4 : Nat
  s5 : Nat
  s6 : Nat
  s7 : Nat
deriving DecidableEq, Repr

/-- Well-formedness: every segment fits in a `u16`. -/
def Ipv6Addr.wf (ip : Ipv6Addr) : Prop :=
  ip.s0 < 65536 ∧ ip.s1 < 65536 ∧ ip.s2 < 65536 ∧ ip.s3 < 65536 ∧
  ip.s4 < 65536 ∧ ip.s5 < 65536 ∧ ip.s6 < 65536 ∧ ip.s7 < 65536

instance (ip : Ipv6Addr) : Decidable ip.wf := by
  unfold Ipv6Addr.wf; infer_instance

/-- `Ipv6Addr::is_unspecified`: all segments zero (`::`). -/
def Ipv6Addr.isUnspecified (ip : Ipv6Addr) : Bool :=
  ip.s0 == 0 && ip.s1 == 0 && ip.s2 == 0 && ip.s3 == 0 &&
  ip.s4 == 0 && ip.s5 == 0 && ip.s6 == 0 && ip.s7 == 0

/-- `Ipv6Addr::is_loopback`: `::1`. -/
def Ipv6Addr.isLoopback (ip : Ipv6Addr) : Bool :=
  ip.s0 == 0 && ip.s1 == 0 && ip.s2 == 0 && ip.s3 == 0 &&
  ip.s4 == 0 && ip.s5 == 0 && ip.s6 == 0 && ip.s7 == 1

/-- `is_not_globally` from `src/message/mod.rs` (lines 136-154): true when the
address is one of the notable non-globally-reachable kinds the function tests
(unspecified, loopback, benchmarking `2001:2::/48` via segment equalities,
documentation `2001:db8::/32`, unique-local via `segments[0] & 0xfe00 == 0xfc00`,
link-local unicast via `segments[0] & 0xffc0 == 0xfe80`). -/
def isNotGlobally (ip : Ipv6Addr) : Bool :=
  let isUnspecified := ip.isUnspecified
  let isLoopback := ip.isLoopback
  let isBenchmarking := (ip.s0 == 0x2001) && (ip.s1 == 0x2) && (ip.s2 == 0)
  let isDocumentation := (ip.s0 == 0x2001) && (ip.s1 == 0xdb8)
  let isUniqueLocal := (ip.s0 &&& 0xfe00) == 0xfc00
  let isUniquest := (ip.s0 &&& 0xffc0) == 0xfe80
  isUnspecified || isLoopback || isBenchmarking || isDocumentation || isUniqueLocal || isUniquest

/-- `std::net::SocketAddr`: a V4 or V6 socket address.  The V6 form carries the
flow-info and scope-id fields of `SocketAddrV6`. -/
inductive SocketAddr where
  | v4 (ip : Ipv4Addr) (port : Nat)
  | v6 (ip : Ipv6Addr) (port : Nat) (flowinfo : Nat) (scopeId : Nat)
deriving DecidableEq, Repr

/-- The guard of the `match` inside `map_local` (`src/message/mod.rs` lines
116-132): a V4 address reaches the callback when it is not loopback; a V6
address reaches the callback when `is_not_globally` holds of it. -/
def mapLocalKeeps : SocketAddr → Bool
  | .v4 ip _ => !ip.isLoopback
  | .v6 ip _ _ _ => isNotGlobally ip

/-- The loop of `map_local` (`src/message/mod.rs` lines 108-135), parametrised
by the address list that `get_local_addrs` produced: each kept address is fed
to the callback, a `Some` result is pushed, an error aborts the whole call. -/
def mapLocalLoop {R : Type} (f : SocketAddr → Except IoError (Option R)) :
    List SocketAddr → Except IoError (List R)
  | [] => .ok []
  | addr :: rest =>
    if mapLocalKeeps addr then
      match f addr with
      | .error e => .error e
      | .ok none => mapLocalLoop f rest
      | .ok (some x) =>
        match mapLocalLoop f rest with
        | .error e => .error e
        | .ok l => .ok (x :: l)
    else
      mapLocalLoop f rest

/-- An interface address as reported by `get_if_addrs`. -/
inductive IpAddr where
  | v4 (ip : Ipv4Addr)
  | v6 (ip : Ipv6Addr)
deriving DecidableEq, Repr

/-- `get_local_addrs` (`src/message/mod.rs` lines 159-164): one `SocketAddr`
per interface address with port 0 (`SocketAddr::new(ip, 0)`; for a V6 address
`SocketAddr::new` fills flow-info and scope-id with 0). -/
def getLocalAddrs (ifaces : List IpAddr) : List SocketAddr :=
  ifaces.map fun a =>
    match a with
    | .v4 ip => .v4 ip 0
    | .v6 ip => .v6 ip 0 0 0

/-! ## Specification-side IPv6 address classes (C1)

These definitions follow the wording of the claim ("unspecified (::), loopback
(::1), benchmarking range, documentation range, unique-local (fc00::/7),
link-local unicast (fe80::/10)"), written independently of the source's
bitmask tests: the CIDR prefixes become segment ranges. -/

/-- The unspecified address `::`. -/
def specUnspecified (ip : Ipv6Addr) : Prop :=
  ip.s0 = 0 ∧ ip.s1 = 0 ∧ ip.s2 = 0 ∧ ip.s3 = 0 ∧
  ip.s4 = 0 ∧ ip.s5 = 0 ∧ ip.s6 = 0 ∧ ip.s7 = 0

/-- The loopback address `::1`. -/
def specLoopback (ip : Ipv6Addr) : Prop :=
  ip.s0 = 0 ∧ ip.s1 = 0 ∧ ip.s2 = 0 ∧ ip.s3 = 0 ∧
  ip.s4 = 0 ∧ ip.s5 = 0 ∧ ip.s6 = 0 ∧ ip.s7 = 1

/-- The benchmarking range `2001:2::/48`. -/
def specBenchmarking (ip : Ipv6Addr) : Prop :=
  ip.s0 = 0x2001 ∧ ip.s1 = 0x2 ∧ ip.s2 = 0

/-- The documentation range `2001:db8::/32`. -/
def specDocumentation (ip : Ipv6Addr) : Prop :=
  ip.s0 = 0x2001 ∧ ip.s1 = 0xdb8

/-- The unique-local block `fc00::/7`: first segment in `[0xfc00, 0xfe00)`. -/
def specUniqueLocal (ip : Ipv6Addr) : Prop :=
  0xfc00 ≤ ip.s0 ∧ ip.s0 < 0xfe00

/-- The link-local unicast block `fe80::/10`: first segment in `[0xfe80, 0xfec0)`. -/
def specLinkLocalUnicast (ip : Ipv6Addr) : Prop :=
  0xfe80 ≤ ip.s0 ∧ ip.s0 < 0xfec0

/-- The claim's list of excluded address classes, as a single predicate. -/
def specExcludedSet (ip : Ipv6Addr) : Prop :=
  specUnspecified ip ∨ specLoopback ip ∨ specBenchmarking ip ∨
  specDocumentation ip ∨ specUniqueLocal ip ∨ specLinkLocalUnicast ip

instance (ip : Ipv6Addr) : Decidable (specUnspecified ip) := by
  unfold specUnspecified; infer_instance

instance (ip : Ipv6Addr) : Decidable (specLoopback ip) := by
  unfold specLoopback; infer_instance

instance (ip : Ipv6Addr) : Decidable (specBenchmarking ip) := by
  unfold specBenchmarking; infer_instance

instance (ip : Ipv6Addr) : Decidable (specDocumentation ip) := by
  unfold specDocumentation; infer_instance

instance (ip : Ipv6Addr) : Decidable (specUniqueLocal ip) := by
  unfold specUniqueLocal; infer_instance

instance (ip : Ipv6Addr) : Decidable (specLinkLocalUnicast ip) := by
  unfold specLinkLocalUnicast; infer_instance

instance (ip : Ipv6Addr) : Decidable (specExcludedSet ip) := by
  unfold specExcludedSet; infer_instance

/-- Whether an `Except` value is a success (`Except::is_ok`). -/
def isOkE {ε α : Type} : Except ε α → Bool
  | .ok _ => true
  | .error _ => false

@[simp]
theorem isOkE_ok {ε α : Type} (a : α) : isOkE (Except.ok a : Except ε α) = true := rfl

@[simp]
theorem isOkE_error {ε α : Type} (e : ε) : isOkE (Except.error e : Except ε α) = false := rfl

/-! ### Bitmask-to-range bridge lemmas -/

/-- A bitwise-and against a mask of high bits ignores any addend below the
mask's alignment. -/
theorem land_mul_pow_add (i a b m : Nat) (hb : b < 2 ^ i) :
    (2 ^ i * a + b) &&& (2 ^ i * m) = 2 ^ i * (a &&& m) := by
  apply Nat.eq_of_testBit_eq
  intro j
  rw [Nat.testBit_and, Nat.testBit_mul_pow_two_add a hb j, Nat.testBit_mul_pow_two,
    Nat.testBit_mul_pow_two, Nat.testBit_and]
  by_cases h : j < i
  · simp [h, Nat.not_le_of_lt h]
  · simp [h, Nat.le_of_not_lt h]

/-- For a `u16` segment, the source's unique-local test
`s &&& 0xfe00 == 0xfc00` means exactly membership in `fc00::/7`. -/
theorem mask_fe00 (s : Nat) (hs : s < 65536) :
    (s &&& 65024 = 64512) ↔ (64512 ≤ s ∧ s < 65024) := by
  have hr : s % 512 < 2 ^ 9 := by omega
  have h1 : s &&& 65024 = 2 ^ 9 * ((s / 512) &&& 127) := by
    conv_lhs => rw [show s = 2 ^ 9 * (s / 512) + s % 512 by omega]
    rw [show (65024 : Nat) = 2 ^ 9 * 127 by norm_num, land_mul_pow_add _ _ _ _ hr]
  have h2 : (s / 512) &&& 127 = s / 512 := by
    rw [show (127 : Nat) = 2 ^ 7 - 1 by norm_num,
      Nat.and_pow_two_sub_one_of_lt_two_pow (by omega)]
  rw [h1, h2]
  omega

/-- For a `u16` segment, the source's link-local test
`s &&& 0xffc0 == 0xfe80` means exactly membership in `fe80::/10`. -/
theorem mask_ffc0 (s : Nat) (hs : s < 65536) :
    (s &&& 65472 = 65152) ↔ (65152 ≤ s ∧ s < 65216) := by
  have hr : s % 64 < 2 ^ 6 := by omega
  have h1 : s &&& 65472 = 2 ^ 6 * ((s / 64) &&& 1023) := by
    conv_lhs => rw [show s = 2 ^ 6 * (s / 64) + s % 64 by omega]
    rw [show (65472 : Nat) = 2 ^ 6 * 1023 by norm_num, land_mul_pow_add _ _ _ _ hr]
  have h2 : (s / 64) &&& 1023 = s / 64 := by
    rw [show (1023 : Nat) = 2 ^ 10 - 1 by norm_num,
      Nat.and_pow_two_sub_one_of_lt_two_pow (by omega)]
  rw [h1, h2]
  omega

/-- Shared characterisation: for a well-formed address, `is_not_globally`
holds exactly on the listed non-global classes. -/
theorem isNotGlobally_iff (ip : Ipv6Addr) (h : ip.wf) :
    isNotGlobally ip = true ↔ specExcludedSet ip := by
  obtain ⟨h0, -, -, -, -, -, -, -⟩ := h
  unfold isNotGlobally specExcludedSet specUnspecified specLoopback
    specBenchmarking specDocumentation specUniqueLocal specLinkLocalUnicast
    Ipv6Addr.isUnspecified Ipv6Addr.isLoopback
  have hu := mask_fe00 ip.s0 h0
  have hl := mask_ffc0 ip.s0 h0
  simp only [Bool.or_eq_true, Bool.and_eq_true, beq_iff_eq]
  constructor
  · rintro (((((hc | hc) | hc) | hc) | hc) | hc)
    · exact Or.inl (by tauto)
    · exact Or.inr (Or.inl (by tauto))
    · exact Or.inr (Or.inr (Or.inl (by tauto)))
    · exact Or.inr (Or.inr (Or.inr (Or.inl (by tauto))))
    · exact Or.inr (Or.inr (Or.inr (Or.inr (Or.inl (hu.mp hc)))))
    · exact Or.inr (Or.inr (Or.inr (Or.inr (Or.inr (hl.mp hc)))))
  · rintro (hc | hc | hc | hc | hc | hc)
    · exact Or.inl (Or.inl (Or.inl (Or.inl (Or.inl (by tauto)))))
    · exact Or.inl (Or.inl (Or.inl (Or.inl (Or.inr (by tauto)))))
    · exact Or.inl (Or.inl (Or.inl (Or.inr (by tauto))))
    · exact Or.inl (Or.inl (Or.inr (by tauto)))
    · exact Or.inl (Or.inr (hu.mpr hc))
    · exact Or.inr (hl.mpr hc)

/-- Shared lemma: `map_local` with the identity collector (as used by
`listen_with_config`) returns exactly the guard-filtered address list. -/
theorem mapLocalLoop_id (addrs : List SocketAddr) :
    mapLocalLoop (fun a => Except.ok (some a)) addrs = .ok (addrs.filter mapLocalKeeps) := by
  induction addrs with
  | nil => rfl
  | cons a rest ih =>
    by_cases h : mapLocalKeeps a
    · simp [mapLocalLoop, h, ih, List.filter_cons]
    · simp [mapLocalLoop, h, ih, List.filter_cons]

/-- C1: counterexample.  The documentation address `2001:db8::1` is in the
claim's excluded list, yet `map_local` keeps it (passes it to the callback);
moreover the global unicast address `2600::1` — which the claim says is
retained — is discarded.  The claimed iff is false at `2001:db8::1`. -/
theorem ipv6_filter_direction_counterexample :
    mapLocalKeeps (.v6 ⟨0x2001, 0xdb8, 0, 0, 0, 0, 0, 1⟩ 0 0 0) = true ∧
    specDocumentation ⟨0x2001, 0xdb8, 0, 0, 0, 0, 0, 1⟩ ∧
    ¬ (mapLocalKeeps (.v6 ⟨0x2001, 0xdb8, 0, 0, 0, 0, 0, 1⟩ 0 0 0) = true ↔
        ¬ specExcludedSet ⟨0x2001, 0xdb8, 0, 0, 0, 0, 0, 1⟩) ∧
    mapLocalKeeps (.v6 ⟨0x2600, 0, 0, 0, 0, 0, 0, 1⟩ 0 0 0) = false := by
  decide

/-- C1 (amended): a local IPv6 address considered by `map_local` is kept
(passed to the per-address callback) if and only if it IS one of: unspecified,
loopback, benchmarking range, documentation range, unique-local (fc00::/7), or
link-local unicast (fe80::/10); in particular every listed address is retained
and a global unicast IPv6 address is excluded.  Second conjunct: running the
`map_local` loop with the identity collector returns exactly the addresses the
guard keeps. -/
theorem ipv6_filter_keeps_nonglobal :
    (∀ (ip : Ipv6Addr) (port fi sc : Nat), ip.wf →
      (mapLocalKeeps (.v6 ip port fi sc) = true ↔ specExcludedSet ip)) ∧
    (∀ addrs : List SocketAddr,
      mapLocalLoop (fun a => Except.ok (some a)) addrs = .ok (addrs.filter mapLocalKeeps)) := by
  constructor
  · intro ip port fi sc h
    exact isNotGlobally_iff ip h
  · exact mapLocalLoop_id

/-- C1 witness: the amended iff applied to the concrete link-local address
`fe80::1` (kept, and in the listed set). -/
theorem ipv6_filter_keeps_nonglobal_witness :
    Ipv6Addr.wf ⟨0xfe80, 0, 0, 0, 0, 0, 0, 1⟩ ∧
    (mapLocalKeeps (.v6 ⟨0xfe80, 0, 0, 0, 0, 0, 0, 1⟩ 0 0 0) = true ↔
      specExcludedSet ⟨0xfe80, 0, 0, 0, 0, 0, 0, 1⟩) :=
  ⟨by decide, ipv6_filter_keeps_nonglobal.1 ⟨0xfe80, 0, 0, 0, 0, 0, 0, 1⟩ 0 0 0 (by decide)⟩

/-! ## C2: the MX (wait-bound) header (`src/header/mx.rs`) -/

/-- ASCII decimal digit test on a byte. -/
def isAsciiDigit (b : Nat) : Bool :=
  48 ≤ b && b ≤ 57

/-- Base-10 value of an ASCII digit string. -/
def digitsVal (bs : List Nat) : Nat :=
  bs.foldl (fun acc b => acc * 10 + (b - 48)) 0

/-- The digit phase of Rust's `u8::from_str`: one or more ASCII digits whose
value fits in a `u8`.  (Rust folds with checked arithmetic and fails on the
first overflow; over digit strings that is observably the same as computing
the value and testing `≤ 255`.) -/
def parseU8Digits (bs : List Nat) : Option Nat :=
  if !bs.isEmpty && bs.all isAsciiDigit && decide (digitsVal bs ≤ 255) then
    some (digitsVal bs)
  else
    none

/-- `String::from_utf8_lossy(bytes).parse::<u8>()` as called by
`MX::parse_header`, acting directly on the raw bytes.  Rust's unsigned-integer
parser accepts an optional leading `+` (byte 43) followed by one or more
digits.  Acting on bytes is faithful: lossy UTF-8 decoding maps every ASCII
byte to itself and never produces an ASCII character from a non-ASCII byte, so
a buffer parses as a number exactly when its bytes already form the numeral. -/
def rustParseU8 (bs : List Nat) : Option Nat :=
  match bs with
  | [] => none
  | b :: rest => if b == 43 then parseU8Digits rest else parseU8Digits (b :: rest)

/-- `MX_HEADER_MIN` from `src/header/mx.rs`. -/
def MX_HEADER_MIN : Nat := 1

/-- `MX_HEADER_MAX` from `src/header/mx.rs`. -/
def MX_HEADER_MAX : Nat := 120

/-- The `MX` header: a `u8` wait bound. -/
structure MX where
  val : Nat
deriving DecidableEq, Repr

/-- The `SSDPError` variant used by `MX::new` (the full error enum lives in
the crate's `error.rs`; only the `InvalidHeader` construction is visible in
`src/header/mx.rs` and only it is modelled). -/
inductive SSDPError where
  | invalidHeader (headerName reason : String)
  | message (msg : String)
  | ioError (kind : IoErrorKind)
deriving DecidableEq, Repr

/-- `MX::new` (`src/header/mx.rs` lines 28-34): rejects a wait bound outside
`MX_HEADER_MIN..=MX_HEADER_MAX`. -/
def mxNew (waitBound : Nat) : Except SSDPError MX :=
  if ¬ (MX_HEADER_MIN ≤ waitBound ∧ waitBound ≤ MX_HEADER_MAX) then
    .error (.invalidHeader "MX" "Supplied Wait Bound Is Out Of Bounds")
  else
    .ok ⟨waitBound⟩

/-- `hyper::Error::Header`, the only hyper error `MX::parse_header` produces. -/
inductive HyperError where
  | header
deriving DecidableEq, Repr

/-- `MX::parse_header` (`src/header/mx.rs` lines 42-53): exactly one raw
value, lossy-decoded and parsed as `u8`, accepted when within
`MX_HEADER_MIN..=MX_HEADER_MAX`. -/
def mxParseHeader (raw : List (List Nat)) : Except HyperError MX :=
  match raw with
  | [v] =>
    match rustParseU8 v with
    | some n =>
      if MX_HEADER_MIN ≤ n ∧ n ≤ MX_HEADER_MAX then .ok ⟨n⟩ else .error .header
    | none => .error .header
  | _ => .error .header

/-- Acceptance of a bare digit string in the MX range `[1,120]`. -/
def mxDigitsAccept (w : List Nat) : Bool :=
  !w.isEmpty && w.all isAsciiDigit && decide (1 ≤ digitsVal w) && decide (digitsVal w ≤ 120)

/-- The claim's acceptance condition for MX parsing: exactly one value, that
value the text of a base-10 unsigned integer with NO sign and no fractional
part, lying in `[1,120]`. -/
def mxClaimAccepts (raw : List (List Nat)) : Bool :=
  match raw with
  | [v] => mxDigitsAccept v
  | _ => false

/-- The amended acceptance condition: like the claim's, but an optional
leading `+` (byte 43) is tolerated before the digits, matching Rust's
unsigned-integer parser. -/
def mxAmendedAccepts (raw : List (List Nat)) : Bool :=
  match raw with
  | [v] =>
    mxDigitsAccept (match v with
      | b :: rest => if b == 43 then rest else b :: rest
      | [] => [])
  | _ => false

/-- The range-check stage of `mxParseHeader` agrees with `mxDigitsAccept`. -/
theorem mxParse_core (u : List Nat) :
    isOkE (match parseU8Digits u with
      | some n =>
        if MX_HEADER_MIN ≤ n ∧ n ≤ MX_HEADER_MAX then (Except.ok ⟨n⟩ : Except HyperError MX)
        else .error .header
      | none => .error .header) = mxDigitsAccept u := by
  unfold parseU8Digits mxDigitsAccept MX_HEADER_MIN MX_HEADER_MAX
  by_cases h1 : u.isEmpty
  · simp [h1]
  · by_cases h2 : u.all isAsciiDigit
    · by_cases h3 : digitsVal u ≤ 255
      · simp only [h1, h2, h3, Bool.not_true, Bool.not_false, Bool.true_and, Bool.and_true,
          if_pos, decide_eq_true_eq]
        by_cases h4 : 1 ≤ digitsVal u ∧ digitsVal u ≤ 120
        · simp [h4, h4.1, h4.2]
        · rcases Decidable.not_and_iff_or_not.mp h4 with h5 | h5 <;> simp [h4, h5]
      · have h4 : ¬ (digitsVal u ≤ 120) := by omega
        simp [h1, h2, h3, h4]
    · simp [h1, h2]

/-- C2: counterexample.  The single raw value `"+5"` (bytes `[43, 53]`)
parses successfully — Rust's `u8` parser accepts a leading plus sign — while
the claim's no-sign condition rejects it, so the claimed iff fails here. -/
theorem mx_parse_plus_sign_counterexample :
    isOkE (mxParseHeader [[43, 53]]) = true ∧ mxClaimAccepts [[43, 53]] = false ∧
    ¬ (isOkE (mxParseHeader [[43, 53]]) = true ↔ mxClaimAccepts [[43, 53]] = true) := by
  refine ⟨by decide, by decide, ?_⟩
  intro h
  have := h.mp (by decide)
  simp [mxClaimAccepts, mxDigitsAccept, isAsciiDigit] at this

/-- C2 (amended): `MX::new n` succeeds iff `1 ≤ n ≤ 120`; MX header parsing
succeeds iff the input is exactly one value consisting of an optional leading
`+` followed by one or more base-10 digits whose value lies in `[1,120]`.
Inputs `0`, `121`, negative numbers and non-integer text all fail. -/
theorem mx_bounds_amended :
    (∀ n : Nat, n < 256 → (isOkE (mxNew n) = true ↔ 1 ≤ n ∧ n ≤ 120)) ∧
    (∀ raw : List (List Nat), isOkE (mxParseHeader raw) = mxAmendedAccepts raw) := by
  constructor
  · intro n _
    unfold mxNew MX_HEADER_MIN MX_HEADER_MAX
    by_cases h : 1 ≤ n ∧ n ≤ 120
    · simp [h, h.1, h.2]
    · simp [h]
  · intro raw
    match raw with
    | [] => rfl
    | v :: w :: rest => rfl
    | [v] =>
      match v with
      | [] => rfl
      | b :: rest =>
        by_cases hb : b == 43
        · simpa [mxParseHeader, rustParseU8, mxAmendedAccepts, hb] using mxParse_core rest
        · simpa [mxParseHeader, rustParseU8, mxAmendedAccepts, hb] using mxParse_core (b :: rest)

/-- C2 witness: the amended construction clause applied at the concrete wait
bound 5. -/
theorem mx_bounds_amended_witness :
    (5 : Nat) < 256 ∧ (isOkE (mxNew 5) = true ↔ 1 ≤ (5 : Nat) ∧ (5 : Nat) ≤ 120) :=
  ⟨by decide, mx_bounds_amended.1 5 (by decide)⟩

/-! ## C3: message kinds and the Notify wrapper (`src/message/notify.rs`) -/

/-- `MessageType` from `src/message/mod.rs` (lines 29-37). -/
inductive MessageType where
  | notify
  | search
  | response
deriving DecidableEq, Repr

/-- Modelled from the spec: `SSDPMessage` — its file `src/message/ssdp.rs` is
not present under `src/`.  For the kind-matching claim only the classified
kind (`message_type`) is relevant, so the header container is not modelled. -/
structure SSDPMessage where
  messageType : MessageType
deriving DecidableEq, Repr

/-- ASCII bytes of a string literal (all strings used here are ASCII). -/
def strBytes (s : String) : List Nat :=
  s.data.map Char.toNat

/-- Whether the buffer contains the header-terminating blank line
(`\r\n\r\n`). -/
def hasBlankLine : List Nat → Bool
  | [] => false
  | b :: rest => List.isPrefixOf [13, 10, 13, 10] (b :: rest) || hasBlankLine rest

/-- Modelled from the spec: `SSDPMessage::raw_ssdp` — defined in the absent
`src/message/ssdp.rs`.  Per spec §4.2 and §6: the external HTTP-style parser
fails when the input is truncated before the blank-line terminator; otherwise
the kind is classified from the start line — a `NOTIFY` request line gives
Notify, an `M-SEARCH` request line gives Search, a status line
(`HTTP/1.1 ...`) gives Response — and a start line matching none of the three
forms is a decode error. -/
def ssdpMessageRawSsdp (bytes : List Nat) : Except SSDPError SSDPMessage :=
  if ¬ hasBlankLine bytes then
    .error (.message "Http Parse Error")
  else if List.isPrefixOf (strBytes "NOTIFY ") bytes then
    .ok ⟨.notify⟩
  else if List.isPrefixOf (strBytes "M-SEARCH ") bytes then
    .ok ⟨.search⟩
  else if List.isPrefixOf (strBytes "HTTP/1.1 ") bytes then
    .ok ⟨.response⟩
  else
    .error (.message "Invalid Start Line")

/-- `NotifyMessage` (`src/message/notify.rs` lines 14-17). -/
structure NotifyMessage where
  message : SSDPMessage
deriving DecidableEq, Repr

/-- `NotifyMessage::raw_ssdp` (`src/message/notify.rs` lines 43-53): decode
the underlying SSDP message, then reject any kind other than Notify. -/
def notifyMessageRawSsdp (bytes : List Nat) : Except SSDPError NotifyMessage :=
  match ssdpMessageRawSsdp bytes with
  | .error e => .error e
  | .ok message =>
    if message.messageType ≠ MessageType.notify then
      .error (.message "SSDP Message Received Is Not A NotifyMessage")
    else
      .ok ⟨message⟩

/-- C3: decoding through the Notify wrapper succeeds iff the underlying SSDP
decode succeeds AND the classified kind is Notify; a kind mismatch is an
error value (the embedding is a total function into `Except`, so never a
panic).  Concretely: the `NOTIFY *` buffer of the crate's own test succeeds,
while the `M-SEARCH *` and status-line buffers fail. -/
theorem notify_wrapper_kind_match :
    (∀ bytes : List Nat,
      isOkE (notifyMessageRawSsdp bytes) = true ↔
        ∃ m, ssdpMessageRawSsdp bytes = .ok m ∧ m.messageType = .notify) ∧
    isOkE (notifyMessageRawSsdp (strBytes "NOTIFY * HTTP/1.1\r\nHOST: 192.168.1.1\r\n\r\n")) = true ∧
    isOkE (notifyMessageRawSsdp (strBytes "M-SEARCH * HTTP/1.1\r\nHOST: 192.168.1.1\r\n\r\n")) = false ∧
    isOkE (notifyMessageRawSsdp (strBytes "HTTP/1.1 200 OK\r\n\r\n")) = false := by
  refine ⟨?_, by decide, by decide, by decide⟩
  intro bytes
  cases h : ssdpMessageRawSsdp bytes with
  | error e => simp [notifyMessageRawSsdp, h]
  | ok m =>
    by_cases hm : m.messageType = .notify
    · simp [notifyMessageRawSsdp, h, hm]
    · simp [notifyMessageRawSsdp, h, hm]

/-! ## C4: the listener loop (`src/receiver.rs::receive_packets`) -/

/-- One outcome of `PacketReceiver::recv_pckt`: a datagram with its sender, or
an I/O error. -/
inductive RecvEvent where
  | pckt (bytes : List Nat) (sender : SocketAddr)
  | err (kind : IoErrorKind)

/-- How a listener thread leaves its loop. -/
inductive ListenerExit where
  | timedOut
  | channelClosed
deriving DecidableEq, Repr

/-- `receive_packets` (`src/receiver.rs` lines 125-164) run over an explicit
trace of receive outcomes.  `decode` is `T::raw_ssdp`; `chan k` says whether
the `k`-th channel send succeeds (`false` = the receiving side hung up).
Returns the delivered items and `some exit` when the loop returned, or `none`
when the trace was consumed with the loop still running (blocked in the next
receive call). -/
def receivePackets {T : Type} (decode : List Nat → Except SSDPError T) (chan : Nat → Bool) :
    List RecvEvent → Nat → List (T × SocketAddr) →
    List (T × SocketAddr) × Option ListenerExit
  | [], _, sent => (sent, none)
  | .err k :: rest, n, sent =>
    if k = .wouldBlock ∨ k = .timedOut then (sent, some .timedOut)
    else receivePackets decode chan rest n sent
  | .pckt bytes addr :: rest, n, sent =>
    match decode bytes with
    | .error _ => receivePackets decode chan rest n sent
    | .ok msg =>
      if chan n then receivePackets decode chan rest (n + 1) (sent ++ [(msg, addr)])
      else (sent, some .channelClosed)

/-- Whether a receive outcome is a platform timeout manifestation. -/
def isTimeoutEvent : RecvEvent → Bool
  | .err .wouldBlock => true
  | .err .timedOut => true
  | _ => false

/-- C4: (1) a failed receive terminates the loop exactly when its kind is
would-block or timed-out; (2) every other receive error is discarded and the
loop continues unchanged; (3) a datagram that fails to decode is silently
discarded; (4) consequently, when the channel stays open and no timeout-class
error occurs, the loop never exits — a listener exits only via a receive
timeout or a failed channel send. -/
theorem receive_loop_exit_policy {T : Type} (decode : List Nat → Except SSDPError T)
    (chan : Nat → Bool) :
    (∀ (k : IoErrorKind) (rest : List RecvEvent) (n : Nat) (sent : List (T × SocketAddr)),
      (k = .wouldBlock ∨ k = .timedOut) →
      receivePackets decode chan (.err k :: rest) n sent = (sent, some .timedOut)) ∧
    (∀ (k : IoErrorKind) (rest : List RecvEvent) (n : Nat) (sent : List (T × SocketAddr)),
      k ≠ .wouldBlock → k ≠ .timedOut →
      receivePackets decode chan (.err k :: rest) n sent = receivePackets decode chan rest n sent) ∧
    (∀ (bytes : List Nat) (addr : SocketAddr) (e : SSDPError) (rest : List RecvEvent)
        (n : Nat) (sent : List (T × SocketAddr)),
      decode bytes = .error e →
      receivePackets decode chan (.pckt bytes addr :: rest) n sent =
        receivePackets decode chan rest n sent) ∧
    (∀ (events : List RecvEvent) (n : Nat) (sent : List (T × SocketAddr)),
      (∀ ev ∈ events, isTimeoutEvent ev = false) → (∀ m, chan m = true) →
      (receivePackets decode chan events n sent).2 = none) := by
  refine ⟨?_, ?_, ?_, ?_⟩
  · intro k rest n sent hk
    simp [receivePackets, hk]
  · intro k rest n sent h1 h2
    simp [receivePackets, h1, h2]
  · intro bytes addr e rest n sent hd
    simp [receivePackets, hd]
  · intro events
    induction events with
    | nil => intro n sent _ _; rfl
    | cons ev rest ih =>
      intro n sent hev hch
      cases ev with
      | err k =>
        have hk : isTimeoutEvent (.err k) = false := hev _ (List.mem_cons_self _ _)
        have hk' : ¬ (k = .wouldBlock ∨ k = .timedOut) := by
          cases k <;> simp_all [isTimeoutEvent]
        simp only [receivePackets, if_neg hk']
        exact ih n sent (fun e he => hev e (List.mem_cons_of_mem _ he)) hch
      | pckt bytes addr =>
        cases hd : decode bytes with
        | error e =>
          simp only [receivePackets, hd]
          exact ih n sent (fun e he => hev e (List.mem_cons_of_mem _ he)) hch
        | ok msg =>
          simp only [receivePackets, hd, hch n, if_pos]
          exact ih (n + 1) (sent ++ [(msg, addr)])
            (fun e he => hev e (List.mem_cons_of_mem _ he)) hch

/-- C4 witness: the timeout clause applied concretely — a would-block error
terminates a listener that has delivered nothing. -/
theorem receive_loop_exit_policy_witness :
    receivePackets (T := NotifyMessage) notifyMessageRawSsdp (fun _ => true)
      [.err .wouldBlock] 0 [] = ([], some .timedOut) :=
  (receive_loop_exit_policy notifyMessageRawSsdp (fun _ => true)).1
    .wouldBlock [] 0 [] (Or.inl rfl)

/-! ## C5, C6, C8: connectors and the multicast send path
(`src/net/connector.rs`, `src/message/mod.rs`, `src/message/multicast.rs`) -/

/-- `IpVersionMode` (`src/net/mod.rs` lines 16-20). -/
inductive IpVersionMode where
  | v4Only
  | v6Only
  | any
deriving DecidableEq, Repr

/-- `Config` (`src/message/mod.rs` lines 40-46).  Note: it carries multicast
address strings, a port, a TTL and a mode — and no IPv6 scope id. -/
structure Config where
  ipv4_addr : String
  ipv6_addr : String
  port : Nat
  ttl : Nat
  mode : IpVersionMode
deriving DecidableEq, Repr

/-- A bound UDP socket as the send path observes it: an OS handle, the local
address that was requested at bind time, and the process-applied multicast
TTL socket option (`None` until some code sets it). -/
structure BoundSocket where
  handle : Nat
  requested : SocketAddr
  multicastTtl : Option Nat
deriving DecidableEq, Repr

/-- A send destination: the V4 branch of `multicast::send` passes an
unresolved `(host-string, port)` pair, the V6 branch an explicit
`SocketAddrV6`. -/
inductive Dest where
  | hostPort (host : String) (port : Nat)
  | sockV6 (addr : Ipv6Addr) (port : Nat) (flowinfo : Nat) (scopeId : Nat)
deriving DecidableEq, Repr

/-- OS-call results the send path consumes: `bind` yields a fresh socket
handle for a requested local address, `localAddr` resolves a handle's actual
bound address (`UdpSocket::local_addr`), `sendMsg` is the outcome of
transmitting the encoded message from a handle to a destination, and `parse6`
is `Ipv6Addr::from_str` on the configured IPv6 multicast string. -/
structure NetEnv where
  bind : SocketAddr → Except IoError Nat
  localAddr : Nat → Except IoError SocketAddr
  sendMsg : Nat → Dest → Except SSDPError Unit
  parse6 : String → Except SSDPError Ipv6Addr

/-- `UdpConnector` (`src/net/connector.rs` line 13): owns one bound socket. -/
structure UdpConnector where
  sock : BoundSocket
deriving DecidableEq, Repr

/-- `UdpConnector::new` (`src/net/connector.rs` lines 17-30): binds a
`UdpSocket` to the given local address and returns the connector.  The
`multicast_ttl` parameter is bound to `_` in the source and the TTL-setting
block (lines 23-27) is commented out, so the socket's TTL option is left
untouched. -/
def udpConnectorNew (env : NetEnv) (localAddr : SocketAddr) (_multicastTtl : Option Nat) :
    Except IoError UdpConnector :=
  match env.bind localAddr with
  | .error e => .error e
  | .ok h => .ok ⟨⟨h, localAddr, none⟩⟩

/-- `all_local_connectors` (`src/message/mod.rs` lines 92-103): `map_local`
with a closure that, per the version filter, builds a connector bound to the
V4 address with port 0, or to the V6 address as-is, and skips the rest. -/
def allLocalConnectors (env : NetEnv) (multicastTtl : Option Nat) (filter : IpVersionMode)
    (addrs : List SocketAddr) : Except IoError (List UdpConnector) :=
  mapLocalLoop (fun addr =>
    match filter, addr with
    | .v4Only, .v4 ip _ | .any, .v4 ip _ =>
      (udpConnectorNew env (.v4 ip 0) multicastTtl).map some
    | .v6Only, .v6 ip p fi sc | .any, .v6 ip p fi sc =>
      (udpConnectorNew env (.v6 ip p fi sc) multicastTtl).map some
    | _, _ => .ok none) addrs

/-- The loop of `multicast::send` (`src/message/multicast.rs` lines 24-44):
for each connector, resolve its bound local address, then transmit to the
configured multicast destination of the matching family — for V6, a
`SocketAddrV6` carrying the flow-info and scope id of the connector's own
local address.  The first error aborts the whole loop.  Alongside the
source's control flow the embedding threads the ghost trace of transmissions
performed, so theorems can speak about what was sent where. -/
def sendLoop (env : NetEnv) (config : Config) :
    List UdpConnector → List (UdpConnector × Dest) →
    Except SSDPError (List (UdpConnector × Dest))
  | [], trace => .ok trace
  | conn :: rest, trace =>
    match env.localAddr conn.sock.handle with
    | .error e => .error (.ioError e)
    | .ok (.v4 _ _) =>
      match env.sendMsg conn.sock.handle (.hostPort config.ipv4_addr config.port) with
      | .error e => .error e
      | .ok _ =>
        sendLoop env config rest (trace ++ [(conn, .hostPort config.ipv4_addr config.port)])
    | .ok (.v6 _ _ fi sc) =>
      match env.parse6 config.ipv6_addr with
      | .error e => .error e
      | .ok ip =>
        match env.sendMsg conn.sock.handle (.sockV6 ip config.port fi sc) with
        | .error e => .error e
        | .ok _ => sendLoop env config rest (trace ++ [(conn, .sockV6 ip config.port fi sc)])

/-- `multicast::send` (`src/message/multicast.rs` lines 21-47): build the
connectors for every qualifying local interface, run the send loop, and
return every connector created (the encoded message's bytes do not influence
the control flow and are abstracted into `sendMsg`). -/
def multicastSend (env : NetEnv) (config : Config) (ifaces : List IpAddr) :
    Except SSDPError (List UdpConnector × List (UdpConnector × Dest)) :=
  match allLocalConnectors env (some config.ttl) config.mode (getLocalAddrs ifaces) with
  | .error e => .error (.ioError e)
  | .ok connectors =>
    match sendLoop env config connectors [] with
    | .error e => .error e
    | .ok trace => .ok (connectors, trace)

/-- Shared lemma: a successful send loop transmitted through every connector,
in order. -/
theorem sendLoop_ok_trace (env : NetEnv) (config : Config) (cs : List UdpConnector) :
    ∀ (tr tr' : List (UdpConnector × Dest)), sendLoop env config cs tr = .ok tr' →
      tr'.map Prod.fst = tr.map Prod.fst ++ cs := by
  induction cs with
  | nil =>
    intro tr tr' h
    simp only [sendLoop] at h
    cases h
    simp
  | cons conn rest ih =>
    intro tr tr' h
    simp only [sendLoop] at h
    cases hl : env.localAddr conn.sock.handle with
    | error e => rw [hl] at h; cases h
    | ok a =>
      rw [hl] at h
      cases a with
      | v4 ip p =>
        dsimp only at h
        cases hs : env.sendMsg conn.sock.handle (.hostPort config.ipv4_addr config.port) with
        | error e => rw [hs] at h; cases h
        | ok u =>
          rw [hs] at h
          dsimp only at h
          have := ih _ _ h
          simpa using this
      | v6 ip p fi sc =>
        dsimp only at h
        cases hp : env.parse6 config.ipv6_addr with
        | error e => rw [hp] at h; cases h
        | ok mip =>
          rw [hp] at h
          dsimp only at h
          cases hs : env.sendMsg conn.sock.handle (.sockV6 mip config.port fi sc) with
          | error e => rw [hs] at h; cases h
          | ok u =>
            rw [hs] at h
            dsimp only at h
            have := ih _ _ h
            simpa using this

/-- C5: the multicast send path either transmits through every connector it
built and returns the full connector list, or aborts with an error — an `ok`
result always covers every connector, so no partial-success value exists; and
the first failing operation's error is the one surfaced (shown for the head
connector's local-address lookup). -/
theorem multicast_send_all_or_nothing :
    (∀ (env : NetEnv) (config : Config) (ifaces : List IpAddr),
      (∃ e, multicastSend env config ifaces = .error e) ∨
      (∃ cs tr, multicastSend env config ifaces = .ok (cs, tr) ∧
        allLocalConnectors env (some config.ttl) config.mode (getLocalAddrs ifaces) = .ok cs ∧
        tr.map Prod.fst = cs)) ∧
    (∀ (env : NetEnv) (config : Config) (conn : UdpConnector) (rest : List UdpConnector)
        (trace : List (UdpConnector × Dest)) (e : IoError),
      env.localAddr conn.sock.handle = .error e →
      sendLoop env config (conn :: rest) trace = .error (.ioError e)) := by
  constructor
  · intro env config ifaces
    cases hc : allLocalConnectors env (some config.ttl) config.mode (getLocalAddrs ifaces) with
    | error e => exact Or.inl ⟨.ioError e, by simp [multicastSend, hc]⟩
    | ok cs =>
      cases hs : sendLoop env config cs [] with
      | error e => exact Or.inl ⟨e, by simp [multicastSend, hc, hs]⟩
      | ok tr =>
        refine Or.inr ⟨cs, tr, by simp [multicastSend, hc, hs], rfl, ?_⟩
        simpa using sendLoop_ok_trace env config cs [] tr hs
  · intro env config conn rest trace e h
    simp [sendLoop, h]

/-- An example environment: binding always yields handle 7, everything else
fails. -/
def envBindOnly : NetEnv :=
  ⟨fun _ => .ok 7, fun _ => .error .timedOut, fun _ _ => .ok (), fun _ => .error (.message "")⟩

/-- C5 witness: the first-error clause at a concrete environment whose
local-address lookup fails with a timed-out error. -/
theorem multicast_send_all_or_nothing_witness :
    sendLoop envBindOnly ⟨"239.255.255.250", "FF02::C", 1900, 2, .any⟩
      [⟨⟨7, .v4 ⟨192, 168, 1, 2⟩ 0, none⟩⟩] [] = .error (.ioError .timedOut) :=
  multicast_send_all_or_nothing.2 _ _ _ _ _ _ rfl

/-- The local port of a socket address. -/
def SocketAddr.port : SocketAddr → Nat
  | .v4 _ p => p
  | .v6 _ p _ _ => p

/-- The bind target the `all_local_connectors` closure derives from a kept
address under the version filter: the V4 address with the port forced to 0,
the V6 address unchanged, or none when the filter excludes the family. -/
def connTarget (filter : IpVersionMode) : SocketAddr → Option SocketAddr
  | .v4 ip _ =>
    match filter with
    | .v4Only | .any => some (.v4 ip 0)
    | .v6Only => none
  | .v6 ip p fi sc =>
    match filter with
    | .v6Only | .any => some (.v6 ip p fi sc)
    | .v4Only => none

/-- The `all_local_connectors` closure, re-expressed through `connTarget`. -/
theorem allLocalConnectors_eq (env : NetEnv) (ttl : Option Nat) (filter : IpVersionMode)
    (addrs : List SocketAddr) :
    allLocalConnectors env ttl filter addrs =
      mapLocalLoop (fun a =>
        match connTarget filter a with
        | none => Except.ok none
        | some t => (udpConnectorNew env t ttl).map some) addrs := by
  unfold allLocalConnectors
  congr 1
  funext a
  cases filter <;> cases a <;> rfl

/-- Shared lemma: a successful connector build yields, for each kept address's
bind target in order, a connector whose socket came from binding that target,
with no TTL applied. -/
theorem mapLocalLoop_connectors (env : NetEnv) (ttl : Option Nat)
    (g : SocketAddr → Option SocketAddr) :
    ∀ (addrs : List SocketAddr) (l : List UdpConnector),
      mapLocalLoop (fun a =>
        match g a with
        | none => Except.ok none
        | some t => (udpConnectorNew env t ttl).map some) addrs = .ok l →
      List.Forall₂ (fun t c =>
          env.bind t = .ok c.sock.handle ∧ c.sock.requested = t ∧ c.sock.multicastTtl = none)
        ((addrs.filter mapLocalKeeps).filterMap g) l := by
  intro addrs
  induction addrs with
  | nil =>
    intro l h
    cases h
    exact List.Forall₂.nil
  | cons a rest ih =>
    intro l h
    by_cases hk : mapLocalKeeps a
    · simp only [mapLocalLoop, if_pos hk] at h
      cases hg : g a with
      | none =>
        rw [hg] at h
        dsimp only at h
        simpa [List.filter_cons, hk, List.filterMap_cons, hg] using ih l h
      | some t =>
        rw [hg] at h
        dsimp only at h
        cases hb : env.bind t with
        | error e =>
          have hred : (udpConnectorNew env t ttl).map some =
              (Except.error e : Except IoError (Option UdpConnector)) := by
            simp [udpConnectorNew, hb, Except.map]
          rw [hred] at h
          cases h
        | ok hnd =>
          have hred : (udpConnectorNew env t ttl).map some =
              Except.ok (some ⟨⟨hnd, t, none⟩⟩) := by
            simp [udpConnectorNew, hb, Except.map]
          rw [hred] at h
          dsimp only at h
          cases hrest : mapLocalLoop (fun a =>
            match g a with
            | none => Except.ok none
            | some t => (udpConnectorNew env t ttl).map some) rest with
          | error e => rw [hrest] at h; cases h
          | ok l' =>
            rw [hrest] at h
            cases h
            simp only [List.filter_cons, hk, List.filterMap_cons, hg, if_pos]
            exact List.Forall₂.cons ⟨hb, rfl, rfl⟩ (ih l' hrest)
    · simp only [mapLocalLoop, if_neg hk] at h
      simpa [List.filter_cons, hk] using ih l h

/-- C6: counterexample.  `UdpConnector::new` ignores its TTL argument — the
TTL-setting block in `src/net/connector.rs` is commented out — so building a
connector with TTL 2 leaves the socket's TTL option unset, and the result is
identical to building with no TTL at all: the configured TTL is applied on no
platform. -/
theorem connector_ttl_ignored_counterexample :
    udpConnectorNew envBindOnly (.v4 ⟨192, 168, 1, 2⟩ 0) (some 2)
      = .ok ⟨⟨7, .v4 ⟨192, 168, 1, 2⟩ 0, none⟩⟩ ∧
    (⟨⟨7, .v4 ⟨192, 168, 1, 2⟩ 0, none⟩⟩ : UdpConnector).sock.multicastTtl ≠ some 2 ∧
    udpConnectorNew envBindOnly (.v4 ⟨192, 168, 1, 2⟩ 0) (some 2)
      = udpConnectorNew envBindOnly (.v4 ⟨192, 168, 1, 2⟩ 0) none :=
  ⟨rfl, by decide, rfl⟩

/-- C6 (amended): for each surviving local address the send path builds one
`UdpConnector` bound to that address with local port 0 (OS-assigned), but the
TTL argument is accepted and ignored — no connector ever has the multicast
TTL option applied. -/
theorem connectors_bound_no_ttl :
    (∀ (env : NetEnv) (ttl : Option Nat) (filter : IpVersionMode) (ifaces : List IpAddr)
        (l : List UdpConnector),
      allLocalConnectors env ttl filter (getLocalAddrs ifaces) = .ok l →
      List.Forall₂ (fun t c =>
          env.bind t = .ok c.sock.handle ∧ c.sock.requested = t ∧ c.sock.multicastTtl = none)
        (((getLocalAddrs ifaces).filter mapLocalKeeps).filterMap (connTarget filter)) l) ∧
    (∀ (filter : IpVersionMode) (ifaces : List IpAddr) (t : SocketAddr),
      t ∈ ((getLocalAddrs ifaces).filter mapLocalKeeps).filterMap (connTarget filter) →
      SocketAddr.port t = 0) := by
  constructor
  · intro env ttl filter ifaces l h
    rw [allLocalConnectors_eq] at h
    exact mapLocalLoop_connectors env ttl (connTarget filter) _ l h
  · intro filter ifaces t ht
    rcases List.mem_filterMap.mp ht with ⟨a, ha, hg⟩
    have ha' := List.mem_of_mem_filter ha
    rcases List.mem_map.mp ha' with ⟨ifc, _, hifc⟩
    cases ifc with
    | v4 ip =>
      subst hifc
      cases filter <;> simp [connTarget] at hg <;> subst hg <;> rfl
    | v6 ip =>
      subst hifc
      cases filter <;> simp [connTarget] at hg <;> subst hg <;> rfl

/-- C6 witness: the amended correspondence at a concrete environment with one
non-loopback V4 interface. -/
theorem connectors_bound_no_ttl_witness :
    List.Forall₂ (fun (t : SocketAddr) (c : UdpConnector) =>
        envBindOnly.bind t = .ok c.sock.handle ∧ c.sock.requested = t ∧
          c.sock.multicastTtl = none)
      (((getLocalAddrs [.v4 ⟨10, 0, 0, 1⟩]).filter mapLocalKeeps).filterMap
        (connTarget .any))
      [⟨⟨7, .v4 ⟨10, 0, 0, 1⟩ 0, none⟩⟩] :=
  connectors_bound_no_ttl.1 envBindOnly (some 2) .any [.v4 ⟨10, 0, 0, 1⟩]
    [⟨⟨7, .v4 ⟨10, 0, 0, 1⟩ 0, none⟩⟩] rfl

/-- Shared lemma: every IPv6 destination in a send-loop trace extension
carries the parsed configured address, the configured port, and the flow-info
and scope id of the transmitting connector's own local address. -/
theorem sendLoop_v6_dest (env : NetEnv) (config : Config) :
    ∀ (cs : List UdpConnector) (tr tr' : List (UdpConnector × Dest)),
      sendLoop env config cs tr = .ok tr' →
      ∀ (c : UdpConnector) (ip : Ipv6Addr) (p fi sc : Nat),
        (c, Dest.sockV6 ip p fi sc) ∈ tr' →
        (c, Dest.sockV6 ip p fi sc) ∈ tr ∨
        (env.parse6 config.ipv6_addr = .ok ip ∧ p = config.port ∧
          ∃ (lip : Ipv6Addr) (lport : Nat),
            env.localAddr c.sock.handle = .ok (.v6 lip lport fi sc)) := by
  intro cs
  induction cs with
  | nil =>
    intro tr tr' h c ip p fi sc hm
    simp only [sendLoop] at h
    cases h
    exact Or.inl hm
  | cons conn rest ih =>
    intro tr tr' h c ip p fi sc hm
    simp only [sendLoop] at h
    cases hl : env.localAddr conn.sock.handle with
    | error e => rw [hl] at h; cases h
    | ok a =>
      rw [hl] at h
      cases a with
      | v4 lip lp =>
        dsimp only at h
        cases hs : env.sendMsg conn.sock.handle (.hostPort config.ipv4_addr config.port) with
        | error e => rw [hs] at h; cases h
        | ok u =>
          rw [hs] at h
          dsimp only at h
          rcases ih _ _ h c ip p fi sc hm with hin | hprop
          · rcases List.mem_append.mp hin with hin' | hin'
            · exact Or.inl hin'
            · simp at hin'
          · exact Or.inr hprop
      | v6 lip lp lfi lsc =>
        dsimp only at h
        cases hp : env.parse6 config.ipv6_addr with
        | error e => rw [hp] at h; cases h
        | ok mip =>
          rw [hp] at h
          dsimp only at h
          cases hs : env.sendMsg conn.sock.handle (.sockV6 mip config.port lfi lsc) with
          | error e => rw [hs] at h; cases h
          | ok u =>
            rw [hs] at h
            dsimp only at h
            rcases ih _ _ h c ip p fi sc hm with hin | hprop
            · rcases List.mem_append.mp hin with hin' | hin'
              · exact Or.inl hin'
              · have hpair := List.mem_singleton.mp hin'
                have hc : c = conn := congrArg Prod.fst hpair
                have hd : Dest.sockV6 ip p fi sc = Dest.sockV6 mip config.port lfi lsc :=
                  congrArg Prod.snd hpair
                injection hd with hip hpp hfi hsc
                subst hc hip hpp hfi hsc
                exact Or.inr ⟨rfl, rfl, lip, lp, hl⟩
            · exact Or.inr ⟨hp ▸ hprop.1, hprop.2⟩

/-- Shared inversion lemma: a successful `multicast::send` decomposes into a
successful connector build and a successful send loop. -/
theorem multicastSend_ok_inv (env : NetEnv) (config : Config) (ifaces : List IpAddr)
    (cs : List UdpConnector) (tr : List (UdpConnector × Dest)) :
    multicastSend env config ifaces = .ok (cs, tr) →
    allLocalConnectors env (some config.ttl) config.mode (getLocalAddrs ifaces) = .ok cs ∧
    sendLoop env config cs [] = .ok tr := by
  intro h
  unfold multicastSend at h
  cases hc : allLocalConnectors env (some config.ttl) config.mode (getLocalAddrs ifaces) with
  | error e =>
    rw [hc] at h
    dsimp only at h
    cases h
  | ok cs' =>
    rw [hc] at h
    dsimp only at h
    cases hs : sendLoop env config cs' [] with
    | error e =>
      rw [hs] at h
      dsimp only at h
      cases h
    | ok tr' =>
      rw [hs] at h
      dsimp only at h
      injection h with h2
      have h3 : cs' = cs := congrArg Prod.fst h2
      have h4 : tr' = tr := congrArg Prod.snd h2
      subst h3 h4
      exact ⟨rfl, hs⟩

/-- C8: for every IPv6 transmission performed by `multicast::send`, the
destination is the parsed `config.ipv6_addr` with `config.port`, augmented
with the flow-info and scope id taken from that connector's own bound local
address — computed per sending interface at send time (the `Config` record
carries no scope id at all). -/
theorem ipv6_send_scope_from_interface :
    ∀ (env : NetEnv) (config : Config) (ifaces : List IpAddr) (cs : List UdpConnector)
      (tr : List (UdpConnector × Dest)) (c : UdpConnector) (ip : Ipv6Addr) (p fi sc : Nat),
      multicastSend env config ifaces = .ok (cs, tr) →
      (c, Dest.sockV6 ip p fi sc) ∈ tr →
      env.parse6 config.ipv6_addr = .ok ip ∧ p = config.port ∧
      ∃ (lip : Ipv6Addr) (lport : Nat),
        env.localAddr c.sock.handle = .ok (.v6 lip lport fi sc) := by
  intro env config ifaces cs tr c ip p fi sc h hm
  obtain ⟨-, hs⟩ := multicastSend_ok_inv env config ifaces cs tr h
  rcases sendLoop_v6_dest env config cs [] tr hs c ip p fi sc hm with hin | hprop
  · simp at hin
  · exact hprop

/-- An example environment for the IPv6 send path: one socket (handle 3)
whose OS-resolved local address is `fe80::1` with flow-info 77 and scope id
4; the configured multicast string parses to `ff02::c`. -/
def envV6 : NetEnv :=
  ⟨fun _ => .ok 3, fun _ => .ok (.v6 ⟨0xfe80, 0, 0, 0, 0, 0, 0, 1⟩ 0 77 4),
    fun _ _ => .ok (), fun _ => .ok ⟨0xff02, 0, 0, 0, 0, 0, 0, 0xc⟩⟩

/-- C8 witness: the scope-id property at the concrete environment `envV6`,
whose single link-local interface transmits with flow-info 77 and scope id 4
taken from its own local address. -/
theorem ipv6_send_scope_from_interface_witness :
    envV6.parse6 "FF02::C" = .ok ⟨0xff02, 0, 0, 0, 0, 0, 0, 0xc⟩ ∧
    (1900 : Nat) = 1900 ∧
    ∃ (lip : Ipv6Addr) (lport : Nat),
      envV6.localAddr 3 = .ok (.v6 lip lport 77 4) :=
  ipv6_send_scope_from_interface envV6 ⟨"239.255.255.250", "FF02::C", 1900, 2, .v6Only⟩
    [.v6 ⟨0xfe80, 0, 0, 0, 0, 0, 0, 1⟩]
    [⟨⟨3, .v6 ⟨0xfe80, 0, 0, 0, 0, 0, 0, 1⟩ 0 0 0, none⟩⟩]
    [(⟨⟨3, .v6 ⟨0xfe80, 0, 0, 0, 0, 0, 0, 1⟩ 0 0 0, none⟩⟩,
      .sockV6 ⟨0xff02, 0, 0, 0, 0, 0, 0, 0xc⟩ 1900 77 4)]
    ⟨⟨3, .v6 ⟨0xfe80, 0, 0, 0, 0, 0, 0, 1⟩ 0 0 0, none⟩⟩
    ⟨0xff02, 0, 0, 0, 0, 0, 0, 0xc⟩ 1900 77 4 rfl (List.Mem.head _)

/-! ## C7: receiver construction (`src/receiver.rs::SSDPReceiver::new`) -/

/-- A `UdpSocket` as `SSDPReceiver::new` sees it: an identifying handle plus
its current read-timeout socket option (`None` = no timeout; the value is
a duration in milliseconds). -/
structure UdpSock where
  handle : Nat
  readTimeout : Option Nat
deriving DecidableEq, Repr

/-- The observable result of `SSDPReceiver::new`: the sockets handed to the
spawned listener threads, one thread per socket, after the constructor
configured them. -/
structure SSDPReceiverM where
  listeners : List UdpSock
deriving DecidableEq, Repr

/-- `SSDPReceiver::new` (`src/receiver.rs` lines 52-64): sets the SINGLE
`time` argument as the read timeout of EVERY socket
(`sock.set_read_timeout(time)?` — which errs when a zero duration is
supplied), then spawns one listener per socket. -/
def ssdpReceiverNew (socks : List UdpSock) (time : Option Nat) :
    Except IoError SSDPReceiverM :=
  if time = some 0 ∧ socks ≠ [] then
    .error (.other 22)
  else
    .ok ⟨socks.map fun s => { s with readTimeout := time }⟩

/-- C7: counterexample.  Two sockets enter construction with distinct
individually configured read timeouts (1000 ms and 2000 ms); after
`SSDPReceiver::new` both listeners carry the single constructor-supplied
timeout (5000 ms) and neither pre-configured value survives — so the
construction contract does not allow per-socket distinct timeouts to
survive. -/
theorem receiver_timeout_overwrite_counterexample :
    ssdpReceiverNew [⟨1, some 1000⟩, ⟨2, some 2000⟩] (some 5000)
      = .ok ⟨[⟨1, some 5000⟩, ⟨2, some 5000⟩]⟩ ∧
    (∀ s ∈ ([⟨1, some 5000⟩, ⟨2, some 5000⟩] : List UdpSock),
      s.readTimeout ≠ some 1000 ∧ s.readTimeout ≠ some 2000) :=
  ⟨rfl, by decide⟩

/-- C7 (amended): `SSDPReceiver::new` applies the single constructor-supplied
timeout to every socket, overwriting any individually configured read
timeout; after a successful construction every listener's socket carries
exactly the constructor's timeout value. -/
theorem receiver_timeout_shared :
    ∀ (socks : List UdpSock) (time : Option Nat) (r : SSDPReceiverM),
      ssdpReceiverNew socks time = .ok r →
      ∀ s ∈ r.listeners, s.readTimeout = time := by
  intro socks time r h s hs
  unfold ssdpReceiverNew at h
  by_cases hz : time = some 0 ∧ socks ≠ []
  · rw [if_pos hz] at h
    cases h
  · rw [if_neg hz] at h
    injection h with h2
    subst h2
    simp only [SSDPReceiverM.listeners] at hs
    rcases List.mem_map.mp hs with ⟨s0, _, hmap⟩
    subst hmap
    rfl

/-- C7 witness: the amended property at the concrete two-socket input of the
counterexample, read off at the first resulting listener socket. -/
theorem receiver_timeout_shared_witness :
    (⟨1, some 5000⟩ : UdpSock).readTimeout = some 5000 :=
  receiver_timeout_shared [⟨1, some 1000⟩, ⟨2, some 2000⟩] (some 5000)
    ⟨[⟨1, some 5000⟩, ⟨2, some 5000⟩]⟩ rfl ⟨1, some 5000⟩ (List.Mem.head _)

/-! ## C9, C10: the listen path (`src/message/listen.rs`) -/

/-- Environment for `listen_with_config`: `parseIp` is `str::parse::<IpAddr>`
of the configured IPv4 multicast string (V4 arm), `parse6` is
`str::parse::<Ipv6Addr>` of the configured IPv6 string (V6 arm), `bindReuse`
is `net::bind_reuse` at a wildcard address, and `joinRes` is
`net::join_multicast` for a socket, interface address and multicast
address. -/
structure ListenEnv where
  parseIp : String → Option IpAddr
  parse6 : String → Option Ipv6Addr
  bindReuse : SocketAddr → Except IoError UdpSock
  joinRes : UdpSock → SocketAddr → IpAddr → Except IoError Unit

/-- The outcome of a call that may return a value, return an error, or panic
(`unwrap` of `None`). -/
inductive POutcome (α : Type) where
  | ok (val : α)
  | err (e : IoError)
  | panic

/-- The IPv4 wildcard bind target `0.0.0.0:port`. -/
def v4Wildcard (port : Nat) : SocketAddr := .v4 ⟨0, 0, 0, 0⟩ port

/-- The IPv6 wildcard bind target `[::]:port`. -/
def v6Wildcard (port : Nat) : SocketAddr := .v6 ⟨0, 0, 0, 0, 0, 0, 0, 0⟩ port 0 0

/-- Whether a socket address is IPv4. -/
def SocketAddr.isV4 : SocketAddr → Bool
  | .v4 _ _ => true
  | .v6 _ _ _ _ => false

/-- The loop of `listen_with_config` (`src/message/listen.rs` lines 35-63):
for each surviving address, parse the configured multicast string of its
family (`unwrap` → panic on failure), bind the family's shared wildcard
socket if not yet bound, and join the interface's multicast group on that
shared socket.  The ghost `joins`/`binds` traces record the join and bind
operations performed. -/
def listenLoop (env : ListenEnv) (config : Config) :
    List SocketAddr → Option UdpSock → Option UdpSock →
    List (SocketAddr × Nat) → List SocketAddr →
    POutcome (Option UdpSock × Option UdpSock × List (SocketAddr × Nat) × List SocketAddr)
  | [], s4, s6, joins, binds => .ok (s4, s6, joins, binds)
  | addr :: rest, s4, s6, joins, binds =>
    match addr with
    | .v4 _ _ =>
      match env.parseIp config.ipv4_addr with
      | none => .panic
      | some mcastIp =>
        match s4 with
        | none =>
          match env.bindReuse (v4Wildcard config.port) with
          | .error e => .err e
          | .ok sock =>
            match env.joinRes sock addr mcastIp with
            | .error e => .err e
            | .ok _ =>
              listenLoop env config rest (some sock) s6
                (joins ++ [(addr, sock.handle)]) (binds ++ [v4Wildcard config.port])
        | some sock =>
          match env.joinRes sock addr mcastIp with
          | .error e => .err e
          | .ok _ =>
            listenLoop env config rest (some sock) s6 (joins ++ [(addr, sock.handle)]) binds
    | .v6 _ _ _ _ =>
      match env.parse6 config.ipv6_addr with
      | none => .panic
      | some mip =>
        match s6 with
        | none =>
          match env.bindReuse (v6Wildcard config.port) with
          | .error e => .err e
          | .ok sock =>
            match env.joinRes sock addr (.v6 mip) with
            | .error e => .err e
            | .ok _ =>
              listenLoop env config rest s4 (some sock)
                (joins ++ [(addr, sock.handle)]) (binds ++ [v6Wildcard config.port])
        | some sock =>
          match env.joinRes sock addr (.v6 mip) with
          | .error e => .err e
          | .ok _ =>
            listenLoop env config rest s4 (some sock) (joins ++ [(addr, sock.handle)]) binds

/-- `Listen::listen_with_config` (`src/message/listen.rs` lines 28-69):
collect the surviving local addresses via `map_local`, run the loop, gather
the at-most-two sockets (`vec![ipv4_sock, ipv6_sock].flatten()`), and hand
them to `SSDPReceiver::new` with `None` as the timeout. -/
def listenWithConfig (env : ListenEnv) (config : Config) (ifaces : List IpAddr) :
    POutcome (SSDPReceiverM × List (SocketAddr × Nat) × List SocketAddr) :=
  match mapLocalLoop (fun a => Except.ok (some a)) (getLocalAddrs ifaces) with
  | .error e => .err e
  | .ok addrs =>
    match listenLoop env config addrs none none [] [] with
    | .panic => .panic
    | .err e => .err e
    | .ok (s4, s6, joins, binds) =>
      match ssdpReceiverNew (s4.toList ++ s6.toList) none with
      | .error e => .err e
      | .ok r => .ok (r, joins, binds)

/-- The number of extra binds a family may still perform: 1 while unbound. -/
def bindBudget (s : Option UdpSock) : Nat :=
  match s with
  | none => 1
  | some _ => 0

/-- Shared invariant of the listen loop: a successful run joins every
processed address in order; only the two wildcard targets are ever bound,
each at most once per family; a bound family socket never changes; and every
join uses the final socket of its address's family. -/
theorem listenLoop_inv (env : ListenEnv) (config : Config) :
    ∀ (addrs : List SocketAddr) (s4 s6 : Option UdpSock)
      (joins : List (SocketAddr × Nat)) (binds : List SocketAddr)
      (s4' s6' : Option UdpSock) (joins' : List (SocketAddr × Nat)) (binds' : List SocketAddr),
      listenLoop env config addrs s4 s6 joins binds = .ok (s4', s6', joins', binds') →
      joins'.map Prod.fst = joins.map Prod.fst ++ addrs ∧
      (∀ b ∈ binds', b ∈ binds ∨ b = v4Wildcard config.port ∨ b = v6Wildcard config.port) ∧
      binds'.length ≤ binds.length + bindBudget s4 + bindBudget s6 ∧
      binds'.count (v4Wildcard config.port) ≤
        binds.count (v4Wildcard config.port) + bindBudget s4 ∧
      binds'.count (v6Wildcard config.port) ≤
        binds.count (v6Wildcard config.port) + bindBudget s6 ∧
      (∀ s, s4 = some s → s4' = some s) ∧
      (∀ s, s6 = some s → s6' = some s) ∧
      (∀ pr ∈ joins', pr ∈ joins ∨
        (pr.1.isV4 = true ∧ ∃ s, s4' = some s ∧ pr.2 = s.handle) ∨
        (pr.1.isV4 = false ∧ ∃ s, s6' = some s ∧ pr.2 = s.handle)) := by
  intro addrs
  induction addrs with
  | nil =>
    intro s4 s6 joins binds s4' s6' joins' binds' h
    simp only [listenLoop] at h
    injection h with h2
    have ha := congrArg (fun x => x.1) h2
    have hb := congrArg (fun x => x.2.1) h2
    have hc := congrArg (fun x => x.2.2.1) h2
    have hd := congrArg (fun x => x.2.2.2) h2
    dsimp at ha hb hc hd
    subst ha hb hc hd
    refine ⟨by simp, fun b hb => Or.inl hb, by omega, by omega, by omega,
      fun s hs => hs, fun s hs => hs, fun pr hpr => Or.inl hpr⟩
  | cons addr rest ih =>
    intro s4 s6 joins binds s4' s6' joins' binds' h
    cases addr with
    | v4 ip p =>
      simp only [listenLoop] at h
      cases hp : env.parseIp config.ipv4_addr with
      | none => rw [hp] at h; cases h
      | some mcastIp =>
        rw [hp] at h
        dsimp only at h
        cases s4 with
        | none =>
          dsimp only at h
          cases hbr : env.bindReuse (v4Wildcard config.port) with
          | error e => rw [hbr] at h; cases h
          | ok sock =>
            rw [hbr] at h
            dsimp only at h
            cases hj : env.joinRes sock (.v4 ip p) mcastIp with
            | error e => rw [hj] at h; cases h
            | ok u =>
              rw [hj] at h
              dsimp only at h
              obtain ⟨hA, hB, hC, hD, hE, hF, hG, hH⟩ := ih _ _ _ _ _ _ _ _ h
              refine ⟨by simpa using hA, ?_, ?_, ?_, ?_, ?_, hG, ?_⟩
              · intro b hbmem
                rcases hB b hbmem with hin | hin | hin
                · rcases List.mem_append.mp hin with hin' | hin'
                  · exact Or.inl hin'
                  · exact Or.inr (Or.inl (List.mem_singleton.mp hin'))
                · exact Or.inr (Or.inl hin)
                · exact Or.inr (Or.inr hin)
              · simp only [List.length_append, List.length_singleton, bindBudget] at hC ⊢
                omega
              · have := List.count_append (v4Wildcard config.port)
                  binds [v4Wildcard config.port]
                simp only [bindBudget] at hD ⊢
                rw [this] at hD
                simp [List.count_singleton] at hD
                omega
              · have := List.count_append (v6Wildcard config.port)
                  binds [v4Wildcard config.port]
                simp only [bindBudget] at hE ⊢
                rw [this] at hE
                have hne : (v4Wildcard config.port == v6Wildcard config.port) = false := by
                  simp [v4Wildcard, v6Wildcard]
                simp [List.count_singleton, hne] at hE
                omega
              · intro s hs
                cases hs
              · intro pr hpr
                rcases hH pr hpr with hin | hin | hin
                · rcases List.mem_append.mp hin with hin' | hin'
                  · exact Or.inl hin'
                  · have := List.mem_singleton.mp hin'
                    subst this
                    exact Or.inr (Or.inl ⟨rfl, sock, hF sock rfl, rfl⟩)
                · exact Or.inr (Or.inl hin)
                · exact Or.inr (Or.inr hin)
        | some sock =>
          dsimp only at h
          cases hj : env.joinRes sock (.v4 ip p) mcastIp with
          | error e => rw [hj] at h; cases h
          | ok u =>
            rw [hj] at h
            dsimp only at h
            obtain ⟨hA, hB, hC, hD, hE, hF, hG, hH⟩ := ih _ _ _ _ _ _ _ _ h
            refine ⟨by simpa using hA, hB, ?_, ?_, ?_, ?_, hG, ?_⟩
            · simp only [bindBudget] at hC ⊢; omega
            · simp only [bindBudget] at hD ⊢; omega
            · simp only [bindBudget] at hE ⊢; omega
            · intro s hs
              cases hs
              exact hF sock rfl
            · intro pr hpr
              rcases hH pr hpr with hin | hin | hin
              · rcases List.mem_append.mp hin with hin' | hin'
                · exact Or.inl hin'
                · have := List.mem_singleton.mp hin'
                  subst this
                  exact Or.inr (Or.inl ⟨rfl, sock, hF sock rfl, rfl⟩)
              · exact Or.inr (Or.inl hin)
              · exact Or.inr (Or.inr hin)
    | v6 ip p fi sc =>
      simp only [listenLoop] at h
      cases hp : env.parse6 config.ipv6_addr with
      | none => rw [hp] at h; cases h
      | some mip =>
        rw [hp] at h
        dsimp only at h
        cases s6 with
        | none =>
          dsimp only at h
          cases hbr : env.bindReuse (v6Wildcard config.port) with
          | error e => rw [hbr] at h; cases h
          | ok sock =>
            rw [hbr] at h
            dsimp only at h
            cases hj : env.joinRes sock (.v6 ip p fi sc) (.v6 mip) with
            | error e => rw [hj] at h; cases h
            | ok u =>
              rw [hj] at h
              dsimp only at h
              obtain ⟨hA, hB, hC, hD, hE, hF, hG, hH⟩ := ih _ _ _ _ _ _ _ _ h
              refine ⟨by simpa using hA, ?_, ?_, ?_, ?_, hF, ?_, ?_⟩
              · intro b hbmem
                rcases hB b hbmem with hin | hin | hin
                · rcases List.mem_append.mp hin with hin' | hin'
                  · exact Or.inl hin'
                  · exact Or.inr (Or.inr (List.mem_singleton.mp hin'))
                · exact Or.inr (Or.inl hin)
                · exact Or.inr (Or.inr hin)
              · simp only [List.length_append, List.length_singleton, bindBudget] at hC ⊢
                omega
              · have := List.count_append (v4Wildcard config.port)
                  binds [v6Wildcard config.port]
                simp only [bindBudget] at hD ⊢
                rw [this] at hD
                have hne : (v6Wildcard config.port == v4Wildcard config.port) = false := by
                  simp [v4Wildcard, v6Wildcard]
                simp [List.count_singleton, hne] at hD
                omega
              · have := List.count_append (v6Wildcard config.port)
                  binds [v6Wildcard config.port]
                simp only [bindBudget] at hE ⊢
                rw [this] at hE
                simp [List.count_singleton] at hE
                omega
              · intro s hs
                cases hs
              · intro pr hpr
                rcases hH pr hpr with hin | hin | hin
                · rcases List.mem_append.mp hin with hin' | hin'
                  · exact Or.inl hin'
                  · have := List.mem_singleton.mp hin'
                    subst this
                    exact Or.inr (Or.inr ⟨rfl, sock, hG sock rfl, rfl⟩)
                · exact Or.inr (Or.inl hin)
                · exact Or.inr (Or.inr hin)
        | some sock =>
          dsimp only at h
          cases hj : env.joinRes sock (.v6 ip p fi sc) (.v6 mip) with
          | error e => rw [hj] at h; cases h
          | ok u =>
            rw [hj] at h
            dsimp only at h
            obtain ⟨hA, hB, hC, hD, hE, hF, hG, hH⟩ := ih _ _ _ _ _ _ _ _ h
            refine ⟨by simpa using hA, hB, ?_, ?_, ?_, hF, ?_, ?_⟩
            · simp only [bindBudget] at hC ⊢; omega
            · simp only [bindBudget] at hD ⊢; omega
            · simp only [bindBudget] at hE ⊢; omega
            · intro s hs
              cases hs
              exact hG sock rfl
            · intro pr hpr
              rcases hH pr hpr with hin | hin | hin
              · rcases List.mem_append.mp hin with hin' | hin'
                · exact Or.inl hin'
                · have := List.mem_singleton.mp hin'
                  subst this
                  exact Or.inr (Or.inr ⟨rfl, sock, hG sock rfl, rfl⟩)
              · exact Or.inr (Or.inl hin)
              · exact Or.inr (Or.inr hin)

/-- C9: the listen path binds at most two sockets in total — at most one
IPv4 socket, always at `0.0.0.0:port`, and at most one IPv6 socket, always at
`[::]:port` — joins every qualifying interface's multicast group onto the
single socket of its family, and constructs the receiver over those (at most
two) sockets with no read timeout; so neither per-interface sockets nor
per-interface listener threads exist on this path. -/
theorem listen_two_shared_sockets :
    ∀ (env : ListenEnv) (config : Config) (ifaces : List IpAddr) (r : SSDPReceiverM)
      (joins : List (SocketAddr × Nat)) (binds : List SocketAddr),
      listenWithConfig env config ifaces = .ok (r, joins, binds) →
      binds.length ≤ 2 ∧
      binds.count (v4Wildcard config.port) ≤ 1 ∧
      binds.count (v6Wildcard config.port) ≤ 1 ∧
      (∀ b ∈ binds, b = v4Wildcard config.port ∨ b = v6Wildcard config.port) ∧
      joins.map Prod.fst = (getLocalAddrs ifaces).filter mapLocalKeeps ∧
      (∃ h4 h6 : Nat, ∀ pr ∈ joins,
        (pr.1.isV4 = true → pr.2 = h4) ∧ (pr.1.isV4 = false → pr.2 = h6)) ∧
      r.listeners.length ≤ 2 ∧
      (∀ s ∈ r.listeners, s.readTimeout = none) := by
  intro env config ifaces r joins binds h
  unfold listenWithConfig at h
  rw [mapLocalLoop_id] at h
  dsimp only at h
  cases hl : listenLoop env config ((getLocalAddrs ifaces).filter mapLocalKeeps)
      none none [] [] with
  | panic => rw [hl] at h; cases h
  | err e => rw [hl] at h; cases h
  | ok quad =>
    obtain ⟨s4', s6', joins', binds'⟩ := quad
    rw [hl] at h
    dsimp only at h
    have hnew : ssdpReceiverNew (s4'.toList ++ s6'.toList) none =
        .ok ⟨(s4'.toList ++ s6'.toList).map fun s => { s with readTimeout := none }⟩ := by
      unfold ssdpReceiverNew
      rw [if_neg]
      simp
    rw [hnew] at h
    dsimp only at h
    injection h with h2
    have hr := congrArg (fun x => x.1) h2
    have hjs := congrArg (fun x => x.2.1) h2
    have hbs := congrArg (fun x => x.2.2) h2
    dsimp at hr hjs hbs
    subst hr hjs hbs
    obtain ⟨hA, hB, hC, hD, hE, -, -, hH⟩ :=
      listenLoop_inv env config _ _ _ _ _ _ _ _ _ hl
    refine ⟨?_, ?_, ?_, ?_, ?_, ?_, ?_, ?_⟩
    · simpa [bindBudget] using hC
    · simpa [bindBudget] using hD
    · simpa [bindBudget] using hE
    · intro b hb
      rcases hB b hb with hin | hin | hin
      · cases hin
      · exact Or.inl hin
      · exact Or.inr hin
    · simpa using hA
    · refine ⟨(s4'.map UdpSock.handle).getD 0, (s6'.map UdpSock.handle).getD 0, ?_⟩
      intro pr hpr
      rcases hH pr hpr with hin | ⟨h4t, s, hs, hph⟩ | ⟨h4f, s, hs, hph⟩
      · cases hin
      · constructor
        · intro _
          rw [hs, hph]
          rfl
        · intro hcontra
          rw [h4t] at hcontra
          cases hcontra
      · constructor
        · intro hcontra
          rw [h4f] at hcontra
          cases hcontra
        · intro _
          rw [hs, hph]
          rfl
    · cases s4' <;> cases s6' <;> simp
    · intro s hs
      rcases List.mem_map.mp hs with ⟨s0, _, hmap⟩
      subst hmap
      rfl

/-- A concrete listen environment: both multicast strings parse, every bind
returns the socket with handle 5 (pre-set 99 ms timeout), every join
succeeds. -/
def envListen : ListenEnv :=
  ⟨fun _ => some (.v4 ⟨239, 255, 255, 250⟩), fun _ => some ⟨0xff02, 0, 0, 0, 0, 0, 0, 0xc⟩,
    fun _ => .ok ⟨5, some 99⟩, fun _ _ _ => .ok ()⟩

/-- C9 witness: the listen-path shape at `envListen` with one qualifying V4
and one qualifying (link-local) V6 interface. -/
theorem listen_two_shared_sockets_witness :
    ([v4Wildcard 1900, v6Wildcard 1900] : List SocketAddr).length ≤ 2 ∧
    ([v4Wildcard 1900, v6Wildcard 1900] : List SocketAddr).count (v4Wildcard 1900) ≤ 1 ∧
    ([v4Wildcard 1900, v6Wildcard 1900] : List SocketAddr).count (v6Wildcard 1900) ≤ 1 ∧
    (∀ b ∈ ([v4Wildcard 1900, v6Wildcard 1900] : List SocketAddr),
      b = v4Wildcard 1900 ∨ b = v6Wildcard 1900) ∧
    ([(SocketAddr.v4 ⟨10, 0, 0, 1⟩ 0, 5), (SocketAddr.v6 ⟨0xfe80, 0, 0, 0, 0, 0, 0, 1⟩ 0 0 0, 5)]
        : List (SocketAddr × Nat)).map Prod.fst =
      (getLocalAddrs [.v4 ⟨10, 0, 0, 1⟩, .v6 ⟨0xfe80, 0, 0, 0, 0, 0, 0, 1⟩]).filter
        mapLocalKeeps ∧
    (∃ h4 h6 : Nat,
      ∀ pr ∈ ([(SocketAddr.v4 ⟨10, 0, 0, 1⟩ 0, 5),
          (SocketAddr.v6 ⟨0xfe80, 0, 0, 0, 0, 0, 0, 1⟩ 0 0 0, 5)] : List (SocketAddr × Nat)),
        (pr.1.isV4 = true → pr.2 = h4) ∧ (pr.1.isV4 = false → pr.2 = h6)) ∧
    (SSDPReceiverM.mk [⟨5, none⟩, ⟨5, none⟩]).listeners.length ≤ 2 ∧
    (∀ s ∈ (SSDPReceiverM.mk [⟨5, none⟩, ⟨5, none⟩]).listeners, s.readTimeout = none) :=
  listen_two_shared_sockets envListen ⟨"239.255.255.250", "FF02::C", 1900, 2, .any⟩
    [.v4 ⟨10, 0, 0, 1⟩, .v6 ⟨0xfe80, 0, 0, 0, 0, 0, 0, 1⟩]
    ⟨[⟨5, none⟩, ⟨5, none⟩]⟩
    [(SocketAddr.v4 ⟨10, 0, 0, 1⟩ 0, 5), (SocketAddr.v6 ⟨0xfe80, 0, 0, 0, 0, 0, 0, 1⟩ 0 0 0, 5)]
    [v4Wildcard 1900, v6Wildcard 1900] rfl

/-- Shared lemma: with an invalid configured IPv4 multicast string and OS
calls that all succeed, the listen loop panics as soon as its address list
contains a V4 address. -/
theorem listenLoop_panic (env : ListenEnv) (config : Config)
    (hp : env.parseIp config.ipv4_addr = none)
    (hbind : ∀ t, ∃ s, env.bindReuse t = .ok s)
    (hjoin : ∀ s a m, env.joinRes s a m = .ok ()) :
    ∀ (addrs : List SocketAddr) (s4 s6 : Option UdpSock)
      (joins : List (SocketAddr × Nat)) (binds : List SocketAddr),
      (∃ a ∈ addrs, a.isV4 = true) →
      listenLoop env config addrs s4 s6 joins binds = .panic := by
  intro addrs
  induction addrs with
  | nil =>
    intro s4 s6 joins binds hex
    obtain ⟨a, ha, -⟩ := hex
    cases ha
  | cons addr rest ih =>
    intro s4 s6 joins binds hex
    obtain ⟨a, ha, hav4⟩ := hex
    cases addr with
    | v4 ip p =>
      simp [listenLoop, hp]
    | v6 ip p fi sc =>
      have harest : ∃ a ∈ rest, a.isV4 = true := by
        rcases List.mem_cons.mp ha with heq | h'
        · subst heq
          simp [SocketAddr.isV4] at hav4
        · exact ⟨a, h', hav4⟩
      cases hp6 : env.parse6 config.ipv6_addr with
      | none => simp [listenLoop, hp6]
      | some mip =>
        cases s6 with
        | none =>
          obtain ⟨s, hs⟩ := hbind (v6Wildcard config.port)
          simp only [listenLoop, hp6, hs, hjoin]
          exact ih _ _ _ _ harest
        | some sock =>
          simp only [listenLoop, hp6, hjoin]
          exact ih _ _ _ _ harest

/-- C10: when the configured IPv4 multicast string does not parse, the
binds and joins all succeed, and at least one qualifying local V4 interface
exists, `listen_with_config` panics (the `unwrap` on the parse) instead of
returning an error value. -/
theorem listen_invalid_ipv4_panics :
    ∀ (env : ListenEnv) (config : Config) (ifaces : List IpAddr),
      env.parseIp config.ipv4_addr = none →
      (∀ t, ∃ s, env.bindReuse t = .ok s) →
      (∀ s a m, env.joinRes s a m = .ok ()) →
      (∃ a ∈ (getLocalAddrs ifaces).filter mapLocalKeeps, a.isV4 = true) →
      listenWithConfig env config ifaces = .panic := by
  intro env config ifaces hp hbind hjoin hex
  unfold listenWithConfig
  rw [mapLocalLoop_id]
  dsimp only
  rw [listenLoop_panic env config hp hbind hjoin _ none none [] [] hex]

/-- A listen environment whose multicast strings never parse but whose OS
calls succeed. -/
def envParseFail : ListenEnv :=
  ⟨fun _ => none, fun _ => none, fun _ => .ok ⟨9, none⟩, fun _ _ _ => .ok ()⟩

/-- C10 witness: an unparsable IPv4 multicast string with one qualifying V4
interface makes the listen path panic. -/
theorem listen_invalid_ipv4_panics_witness :
    listenWithConfig envParseFail ⟨"not-an-ip", "also-bad", 1900, 2, .any⟩
      [.v4 ⟨10, 0, 0, 1⟩] = .panic :=
  listen_invalid_ipv4_panics envParseFail ⟨"not-an-ip", "also-bad", 1900, 2, .any⟩
    [.v4 ⟨10, 0, 0, 1⟩] rfl (fun _ => ⟨⟨9, none⟩, rfl⟩) (fun _ _ _ => rfl)
    ⟨.v4 ⟨10, 0, 0, 1⟩ 0, by decide, rfl⟩

end Ssdp
